import Mathlib

/-
Verification development for the wasper WebAssembly core
(src/exec/runtime.rs, src/binary/types.rs).

Shallow embedding conventions:
  * machine integers are `Nat` bit patterns (i32 patterns live below 2^32);
    wrapping arithmetic is explicit `% 2^32`;
  * Rust panics (out-of-bounds indexing, operand-stack underflow, ill-typed
    pops, usize underflow) are modelled by `Option.none` from a primitive,
    bubbled up to `Err.panicked` by the interpreter;
  * the unbounded recursion of `exec`/`step` is made total with a fuel
    parameter; running out of fuel is `Err.outOfFuel`, a model artifact that
    corresponds to no behaviour of the source;
  * the stack module (src/exec/stack.rs) and the binary-module instruction
    types are not part of the given sources; their definitions below are
    modelled from the specification and are marked as such.
-/

set_option linter.unusedVariables false

namespace Wasper

/-- Modelled from the spec: runtime values (spec section 3, `Value`; the source
file src/exec/value.rs is missing). Integer payloads are twos-complement bit
patterns stored as `Nat`; float payloads are raw IEEE-754 bit patterns (no
float arithmetic occurs in the modelled core). -/
inductive Value
  | I32 (n : Nat)
  | I64 (n : Nat)
  | F32 (bits : Nat)
  | F64 (bits : Nat)
  | FuncRef (a : Option Nat)
  | ExternRef (a : Option Nat)
  deriving DecidableEq, Repr

/-- Source src/binary/types.rs: `ValType`. -/
inductive ValType
  | I32
  | I64
  | F32
  | F64
  | FuncRef
  | ExternRef
  deriving DecidableEq, Repr

/-- Source src/binary/types.rs: `FuncType(pub ResultType, pub ResultType)`.
Field `params` is the positional field `.0` and `results` is `.1`; a
`ResultType` is an ordered list of value types. -/
structure FuncType where
  params : List ValType
  results : List ValType
  deriving DecidableEq, Repr

/-- Source src/binary/types.rs: `Mut`. -/
inductive Mut
  | Const
  | Var
  deriving DecidableEq, Repr

/-- Source src/binary/types.rs: `GlobalType`. -/
structure GlobalType where
  valtype : ValType
  mut_ : Mut
  deriving DecidableEq, Repr

/-- Modelled from the spec: block types (`crate::binary::Block`, whose file is
missing); variants per spec section 4.6 step 4. -/
inductive Block
  | Empty
  | ValType (t : ValType)
  | TypeIdx (idx : Nat)
  deriving DecidableEq, Repr

/-- Modelled from the spec: the instruction type of the binary module (file
missing). The constructors are exactly the opcodes `step` dispatches on
(spec section 4.6 and runtime.rs lines 375-486); `Unimplemented` stands for
every remaining opcode, which the wildcard arm of `step` rejects with
`Trap::NotImplemented`. -/
inductive Instr
  | I32Const (n : Nat)
  | I64Const (n : Nat)
  | F32Const (bits : Nat)
  | F64Const (bits : Nat)
  | I32Add
  | Nop
  | Unreachable
  | Block (bt : Wasper.Block) (in1 : List Instr)
  | Loop (bt : Wasper.Block) (in1 : List Instr)
  | If (bt : Wasper.Block) (in1 : List Instr) (in2 : Option (List Instr))
  | Br (l : Nat)
  | BrIf (l : Nat)
  | BrTable (indexs : List Nat) (default : Nat)
  | Return
  | Call (a : Nat)
  | LocalGet (l : Nat)
  | GlobalGet (i : Nat)
  | GlobalSet (i : Nat)
  | Unimplemented

/-- Modelled from the spec: a control label (spec section 3): arity `n` and the
value-region length `offset` recorded when the label was pushed. -/
structure Label where
  n : Nat
  offset : Nat
  deriving DecidableEq, Repr

/-- Modelled from the spec: the stack of src/exec/stack.rs (file missing),
restricted to the two regions the interpreter touches through the section 4.1
contract: the value region and the label region, innermost element first.
Activation frames are passed separately to `exec`/`step`, as in runtime.rs. -/
structure Stack where
  values : List Value
  labels : List Label
  deriving DecidableEq, Repr

/-- Modelled from the spec: activation frame (spec section 3). Field `local_`
is the source field `local`, renamed because `local` is a Lean keyword. -/
structure Frame where
  instance_addr : Nat
  local_ : List Value
  deriving DecidableEq, Repr

/-- Modelled from the spec: export descriptors (spec section 6, `desc` of an
export); only `Func` is invocable, the other variants make non-function
exports representable. -/
inductive ExportDesc
  | Func (i : Nat)
  | Table (i : Nat)
  | Mem (i : Nat)
  | Global (i : Nat)
  deriving DecidableEq, Repr

/-- Modelled from the spec: an export `(name, desc)` (spec section 6). -/
structure Export where
  name : String
  desc : ExportDesc
  deriving DecidableEq, Repr

/-- Modelled from the spec: a module function (spec section 6): type index,
declared locals, and the body instruction list (the source accesses it as
`func.body.0`). -/
structure Func where
  typeidx : Nat
  locals : List ValType
  body : List Instr

/-- Source runtime.rs:27 `Instance`. -/
structure Instance where
  funcaddrs : List Nat
  globaladdrs : List Nat
  types : List FuncType
  start : Option Nat
  exports : List Export
  stack : Stack

/-- Source runtime.rs:74 `FuncInst`. -/
inductive FuncInst
  | InnerFunc (functype : FuncType) (instance_addr : Nat) (func : Func)
  | HostFunc (functype : FuncType) (name : String)

/-- Source runtime.rs:87 `GlobalInst`. -/
structure GlobalInst where
  globaltype : GlobalType
  value : Value

/-- Source runtime.rs:93 `Store`. -/
structure Store where
  funcs : List FuncInst
  globals : List GlobalInst

/-- Source runtime.rs:20 `ExecState`. -/
inductive ExecState
  | Breaking (l : Nat)
  | Continue
  | Return
  deriving DecidableEq, Repr

/-- Modelled from the spec: execution traps (spec section 7; the source file
src/exec/trap.rs is missing). These are the two kinds the interpreter under
src/ raises. -/
inductive Trap
  | Unreachable
  | NotImplemented
  deriving DecidableEq, Repr

/-- Abnormal outcome of a modelled execution: a trap, a Rust panic, or fuel
exhaustion (a model artifact of making the unbounded source recursion total). -/
inductive Err
  | trap (t : Trap)
  | panicked
  | outOfFuel
  deriving DecidableEq, Repr

/-- The mutable state `(instances, store)` threaded through `exec`/`step`. -/
structure Config where
  instances : List Instance
  store : Store

/-- Modelled from the spec: the host-environment capability (spec section 4.5):
`call(name, caller_stack)` mutates the caller stack. -/
def HostEnv : Type := String → Stack → Stack

/-- Modelled from the spec: section 4.1 `push_value`. -/
def Stack.push_value (s : Stack) (v : Value) : Stack :=
  { s with values := v :: s.values }

/-- Modelled from the spec: section 4.1 `pop_value` (untyped); `none` models
the panic on an empty value region. -/
def Stack.pop_value (s : Stack) : Option (Value × Stack) :=
  match s.values with
  | [] => none
  | v :: rest => some (v, { s with values := rest })

/-- Modelled from the spec: the typed variant `pop_value::<i32>()`, converting
through the `Value` tags; `none` models the panic on an empty value region or
a non-`I32` top value. -/
def Stack.pop_i32 (s : Stack) : Option (Nat × Stack) :=
  match s.values with
  | Value.I32 n :: rest => some (n, { s with values := rest })
  | _ => none

/-- Modelled from the spec: section 4.1 `push_label`. -/
def Stack.push_label (s : Stack) (lab : Label) : Stack :=
  { s with labels := lab :: s.labels }

/-- Modelled from the spec: section 4.1 `pop_label`; `none` models the panic on
an empty label region. -/
def Stack.pop_label (s : Stack) : Option Stack :=
  match s.labels with
  | [] => none
  | _ :: rest => some ({ s with labels := rest })

/-- Modelled from the spec: section 4.1 `th_label(l)`, the l-th-from-top label,
`l = 0` innermost; `none` models the panic on an out-of-range index. -/
def Stack.th_label (s : Stack) (l : Nat) : Option Label :=
  s.labels.get? l

/-- Modelled from the spec: section 4.1 `values_len()`. -/
def Stack.values_len (s : Stack) : Nat :=
  s.values.length

/-- Modelled from the spec: section 4.1 `get_returns()`: drain all remaining
values, bottom first, for function return. -/
def Stack.get_returns (s : Stack) : List Value × Stack :=
  (s.values.reverse, { s with values := [] })

/-- Pop `n` values one by one, collecting them in pop order (top of the stack
first), as the `for` loops of `jump` (runtime.rs:54) and `Call`
(runtime.rs:449) do. -/
def Stack.popN : Nat → Stack → Option (List Value × Stack)
  | 0, s => some ([], s)
  | n + 1, s =>
    match s.pop_value with
    | none => none
    | some (v, s') =>
      match Stack.popN n s' with
      | none => none
      | some (vs, s'') => some (v :: vs, s'')

/-- Pop `n` labels one by one, as the loop at runtime.rs:63 does. -/
def Stack.popLabels : Nat → Stack → Option Stack
  | 0, s => some s
  | n + 1, s =>
    match s.pop_label with
    | none => none
    | some s' => Stack.popLabels n s'

/-- Source runtime.rs:37 `Instance::binary_op`, specialized to `i32` (the only
instantiation the interpreter uses). The first pop binds the source variable
`lhs` (the top of the stack), the second binds `rhs`; the pushed value is the
32-bit pattern of `f lhs rhs`. -/
def Instance.binary_op_i32 (inst : Instance) (f : Nat → Nat → Nat) : Option Instance :=
  match inst.stack.pop_i32 with
  | none => none
  | some (lhs, s1) =>
    match s1.pop_i32 with
    | none => none
    | some (rhs, s2) =>
      some ({ inst with stack := s2.push_value (Value.I32 (f lhs rhs % 4294967296)) })

/-- Source runtime.rs:43 `Instance::block_to_arity`; `none` models the panic on
an out-of-range type index. -/
def Instance.block_to_arity (inst : Instance) (bt : Block) : Option Nat :=
  match bt with
  | Block.Empty => some 0
  | Block.ValType _ => some 1
  | Block.TypeIdx idx => (inst.types.get? idx).map (fun t => t.results.length)

/-- Source runtime.rs:51 `Instance::jump`: buffer the top `label.n` values,
discard down to `label.offset`, pop labels `0..=l`, push the buffer back in
original order. `none` models the panics (label index out of range, operand
underflow, usize underflow in `values_len() - label.offset`). -/
def Instance.jump (inst : Instance) (l : Nat) : Option Instance :=
  match inst.stack.th_label l with
  | none => none
  | some label =>
    match Stack.popN label.n inst.stack with
    | none => none
    | some (values, s1) =>
      if label.offset ≤ s1.values_len then
        match Stack.popN (s1.values_len - label.offset) s1 with
        | none => none
        | some (_, s2) =>
          match Stack.popLabels (l + 1) s2 with
          | none => none
          | some s3 => some ({ inst with stack := values.reverse.foldl Stack.push_value s3 })
      else none

/-- Source runtime.rs:154 `RuntimeError` (without payloads). -/
inductive RuntimeErrorKind
  | ModuleNotFound
  | ConstantExpression
  | Trap
  deriving DecidableEq, Repr

/-- Result type of the modelled `eval_const`: `panicked` models the panic of
`expr.0[0]` on an empty expression. -/
inductive EvalConstResult
  | ok (v : Value)
  | constantExpression
  | panicked
  deriving DecidableEq, Repr

/-- Source runtime.rs:178 `eval_const`: inspect `expr.0[0]` and accept the four
constant opcodes; any other first instruction yields
`RuntimeError::ConstantExpression`; the empty expression panics. -/
def eval_const : List Instr → EvalConstResult
  | [] => EvalConstResult.panicked
  | i :: _ =>
    match i with
    | Instr.I32Const v => EvalConstResult.ok (Value.I32 v)
    | Instr.I64Const v => EvalConstResult.ok (Value.I64 v)
    | Instr.F32Const v => EvalConstResult.ok (Value.F32 v)
    | Instr.F64Const v => EvalConstResult.ok (Value.F64 v)
    | _ => EvalConstResult.constantExpression

/-- The effect of one iteration of the `update_func_inst` loop body on one
store entry: rebind an inner function to `a`, leave a host function alone. -/
def FuncInst.rebind (f : FuncInst) (a : Nat) : FuncInst :=
  match f with
  | FuncInst.InnerFunc ft _ func => FuncInst.InnerFunc ft a func
  | FuncInst.HostFunc ft name => FuncInst.HostFunc ft name

/-- Source runtime.rs:124 `Store::update_func_inst`: for each address in
`funcaddrs`, if the store entry is an `InnerFunc`, set its `instance_addr`;
`none` models the panic of `self.funcs[funcaddr]` on an out-of-range address. -/
def Store.update_func_inst (store : Store) (funcaddrs : List Nat) (instance_addr : Nat) : Option Store :=
  match funcaddrs with
  | [] => some store
  | fa :: rest =>
    match store.funcs.get? fa with
    | none => none
    | some (FuncInst.InnerFunc ft _ func) =>
      Store.update_func_inst
        { store with funcs := store.funcs.set fa (FuncInst.InnerFunc ft instance_addr func) }
        rest instance_addr
    | some (FuncInst.HostFunc _ _) => Store.update_func_inst store rest instance_addr

/-- Replace instance `i` of the configuration (the write-back of the source
`&mut instances[frame.instance_addr]` borrow). -/
def Config.setInst (cfg : Config) (i : Nat) (inst : Instance) : Config :=
  { cfg with instances := cfg.instances.set i inst }

/-- The Rust cast `pop_value::<i32>() as usize` on a 64-bit host: a pattern
with the sign bit set is sign-extended. -/
def usizeOfI32 (p : Nat) : Nat :=
  if p < 2147483648 then p else p + (18446744073709551616 - 4294967296)

mutual

/-- Source runtime.rs:367 `step`, fuel-indexed. The source first takes
`&mut instances[frame.instance_addr]` (panic when out of range), then
dispatches on the instruction exactly as runtime.rs lines 375-486 do. -/
def step (env : HostEnv) (fuel : Nat) (cfg : Config) (instr : Instr) (frame : Frame) :
    Except Err (ExecState × Config) :=
  match fuel with
  | 0 => Except.error Err.outOfFuel
  | fuel + 1 =>
    match cfg.instances.get? frame.instance_addr with
    | none => Except.error Err.panicked
    | some inst =>
      match instr with
      | Instr.I32Const a =>
        Except.ok (ExecState.Continue,
          cfg.setInst frame.instance_addr ({ inst with stack := inst.stack.push_value (Value.I32 a) }))
      | Instr.I32Add =>
        match inst.binary_op_i32 (fun a b => a + b) with
        | none => Except.error Err.panicked
        | some inst' => Except.ok (ExecState.Continue, cfg.setInst frame.instance_addr inst')
      | Instr.Nop => Except.ok (ExecState.Continue, cfg)
      | Instr.Unreachable => Except.error (Err.trap Trap.Unreachable)
      | Instr.Block bt in1 =>
        match inst.block_to_arity bt with
        | none => Except.error Err.panicked
        | some n =>
          let newLabel : Label := { n := n, offset := inst.stack.values_len }
          let inst' := { inst with stack := inst.stack.push_label newLabel }
          match exec env fuel (cfg.setInst frame.instance_addr inst') in1 frame with
          | Except.error e => Except.error e
          | Except.ok (ExecState.Breaking (l + 1), cfg') =>
            Except.ok (ExecState.Breaking l, cfg')
          | Except.ok (_, cfg') => Except.ok (ExecState.Continue, cfg')
      | Instr.Loop bt in1 =>
        match exec env fuel cfg in1 frame with
        | Except.error e => Except.error e
        | Except.ok (ExecState.Breaking (l + 1), cfg') =>
          Except.ok (ExecState.Breaking l, cfg')
        | Except.ok (ExecState.Return, cfg') => Except.ok (ExecState.Return, cfg')
        | Except.ok (_, cfg') => step env fuel cfg' (Instr.Loop bt in1) frame
      | Instr.If bt in1 in2 =>
        match inst.stack.pop_i32 with
        | none => Except.error Err.panicked
        | some (c, s1) =>
          let cfg1 := cfg.setInst frame.instance_addr ({ inst with stack := s1 })
          if c ≠ 0 then
            match exec env fuel cfg1 in1 frame with
            | Except.error e => Except.error e
            | Except.ok (ExecState.Breaking (l + 1), cfg') =>
              Except.ok (ExecState.Breaking l, cfg')
            | Except.ok (ExecState.Return, cfg') => Except.ok (ExecState.Return, cfg')
            | Except.ok (_, cfg') => Except.ok (ExecState.Continue, cfg')
          else
            match in2 with
            | none => Except.ok (ExecState.Continue, cfg1)
            | some in2' =>
              match exec env fuel cfg1 in2' frame with
              | Except.error e => Except.error e
              | Except.ok (ExecState.Breaking (l + 1), cfg') =>
                Except.ok (ExecState.Breaking l, cfg')
              | Except.ok (ExecState.Return, cfg') => Except.ok (ExecState.Return, cfg')
              | Except.ok (_, cfg') => Except.ok (ExecState.Continue, cfg')
      | Instr.Br l =>
        match inst.jump l with
        | none => Except.error Err.panicked
        | some inst' => Except.ok (ExecState.Breaking l, cfg.setInst frame.instance_addr inst')
      | Instr.BrIf l =>
        match inst.stack.pop_i32 with
        | none => Except.error Err.panicked
        | some (c, s1) =>
          let inst1 := { inst with stack := s1 }
          if c ≠ 0 then
            match inst1.jump l with
            | none => Except.error Err.panicked
            | some inst' =>
              Except.ok (ExecState.Breaking l, cfg.setInst frame.instance_addr inst')
          else Except.ok (ExecState.Continue, cfg.setInst frame.instance_addr inst1)
      | Instr.BrTable indexs default =>
        match inst.stack.pop_i32 with
        | none => Except.error Err.panicked
        | some (ip, s1) =>
          let i := usizeOfI32 ip
          let inst1 := { inst with stack := s1 }
          if i ≤ indexs.length then
            match indexs.get? i with
            | none => Except.error Err.panicked
            | some t =>
              match inst1.jump t with
              | none => Except.error Err.panicked
              | some inst' =>
                Except.ok (ExecState.Breaking t, cfg.setInst frame.instance_addr inst')
          else
            match inst1.jump default with
            | none => Except.error Err.panicked
            | some inst' =>
              Except.ok (ExecState.Breaking default, cfg.setInst frame.instance_addr inst')
      | Instr.Return => Except.ok (ExecState.Return, cfg)
      | Instr.Call a =>
        match cfg.store.funcs.get? a with
        | none => Except.error Err.panicked
        | some (FuncInst.HostFunc _ name) =>
          Except.ok (ExecState.Continue,
            cfg.setInst frame.instance_addr ({ inst with stack := env name inst.stack }))
        | some (FuncInst.InnerFunc functype instance_addr func) =>
          match Stack.popN functype.params.length inst.stack with
          | none => Except.error Err.panicked
          | some (local_, s1) =>
            let cfg1 := cfg.setInst frame.instance_addr ({ inst with stack := s1 })
            let new_frame : Frame := { instance_addr := instance_addr, local_ := local_ }
            match exec env fuel cfg1 func.body new_frame with
            | Except.error e => Except.error e
            | Except.ok (_, cfg2) =>
              if frame.instance_addr ≠ new_frame.instance_addr then
                match cfg2.instances.get? new_frame.instance_addr,
                      cfg2.instances.get? frame.instance_addr with
                | some derived, some origin =>
                  let rs := derived.stack.get_returns
                  let cfg3 := cfg2.setInst new_frame.instance_addr ({ derived with stack := rs.2 })
                  Except.ok (ExecState.Continue,
                    cfg3.setInst frame.instance_addr
                      ({ origin with stack := rs.1.foldl Stack.push_value origin.stack }))
                | _, _ => Except.error Err.panicked
              else Except.ok (ExecState.Continue, cfg2)
      | Instr.LocalGet l =>
        match frame.local_.get? l with
        | none => Except.error Err.panicked
        | some v =>
          Except.ok (ExecState.Continue,
            cfg.setInst frame.instance_addr ({ inst with stack := inst.stack.push_value v }))
      | Instr.GlobalGet i =>
        match inst.globaladdrs.get? i with
        | none => Except.error Err.panicked
        | some gi =>
          match cfg.store.globals.get? gi with
          | none => Except.error Err.panicked
          | some g =>
            Except.ok (ExecState.Continue,
              cfg.setInst frame.instance_addr ({ inst with stack := inst.stack.push_value g.value }))
      | Instr.GlobalSet i =>
        match inst.stack.pop_value with
        | none => Except.error Err.panicked
        | some (v, s1) =>
          match inst.globaladdrs.get? i with
          | none => Except.error Err.panicked
          | some gi =>
            match cfg.store.globals.get? gi with
            | none => Except.error Err.panicked
            | some g =>
              let cfg1 := cfg.setInst frame.instance_addr ({ inst with stack := s1 })
              Except.ok (ExecState.Continue,
                { cfg1 with store :=
                  { cfg1.store with globals := cfg1.store.globals.set gi ({ g with value := v }) } })
      | _ => Except.error (Err.trap Trap.NotImplemented)

/-- Source runtime.rs:347 `exec`, fuel-indexed: walk the sequence; `Continue`
advances, any other state propagates; exhaustion yields `Return`. -/
def exec (env : HostEnv) (fuel : Nat) (cfg : Config) (instrs : List Instr) (frame : Frame) :
    Except Err (ExecState × Config) :=
  match fuel with
  | 0 => Except.error Err.outOfFuel
  | fuel + 1 =>
    match instrs with
    | [] => Except.ok (ExecState.Return, cfg)
    | i :: rest =>
      match step env fuel cfg i frame with
      | Except.error e => Except.error e
      | Except.ok (ExecState.Continue, cfg') => exec env fuel cfg' rest frame
      | Except.ok (st, cfg') => Except.ok (st, cfg')

end

/-- Source runtime.rs:145 `Runtime`, restricted to the pure data the claims
concern; the importer and host environment are passed separately where
needed. -/
structure Runtime where
  root : Nat
  instances : List Instance
  store : Store

/-- Outcome of the modelled `Runtime::start`. The source swallows traps after
printing them, leaving the partially mutated state; the spec (section 7)
declares such state undefined, so the model does not observe it. -/
inductive StartOutcome
  | ok (rt : Runtime)
  | trapped
  | panicked
  | outOfFuel

/-- Source runtime.rs:283 `Runtime::start`: when the root module declared a
start index, look the function up as `store.funcs[index]` (the raw module
index, not `funcaddrs[index]`); a host function goes to the host environment,
an inner function is executed with an empty-locals frame at `root`. -/
def Runtime.start (env : HostEnv) (fuel : Nat) (rt : Runtime) : StartOutcome :=
  match rt.instances.get? rt.root with
  | none => StartOutcome.panicked
  | some rootInst =>
    match rootInst.start with
    | none => StartOutcome.ok rt
    | some index =>
      match rt.store.funcs.get? index with
      | none => StartOutcome.panicked
      | some (FuncInst.HostFunc _ name) =>
        StartOutcome.ok
          { rt with instances :=
            rt.instances.set rt.root ({ rootInst with stack := env name rootInst.stack }) }
      | some (FuncInst.InnerFunc _ _ func) =>
        match exec env fuel ({ instances := rt.instances, store := rt.store }) func.body
            ({ instance_addr := rt.root, local_ := [] }) with
        | Except.ok (_, cfg) =>
          StartOutcome.ok { rt with instances := cfg.instances, store := cfg.store }
        | Except.error (Err.trap _) => StartOutcome.trapped
        | Except.error Err.panicked => StartOutcome.panicked
        | Except.error Err.outOfFuel => StartOutcome.outOfFuel

/-- Outcome of the modelled `Runtime::invoke`. `panicked msg` models the two
source `panic!` sites and panics bubbling out of `exec`; `trap` is the
`Err(Trap)` result; `outOfFuel` is the fuel artifact. -/
inductive InvokeOutcome
  | ok (vs : List Value) (rt : Runtime)
  | trap (t : Trap)
  | panicked (msg : String)
  | outOfFuel

/-- Source runtime.rs:310 `Runtime::invoke`: find the first export of the root
instance with the given name (panic when absent), require a function export
(panic otherwise), resolve `store.funcs[funcaddrs[index]]`, run a host
function against the root stack or an inner function in a fresh frame with
`local = params`, then drain the root stack with `get_returns`. -/
def Runtime.invoke (env : HostEnv) (fuel : Nat) (rt : Runtime) (name : String)
    (params : List Value) : InvokeOutcome :=
  match rt.instances.get? rt.root with
  | none => InvokeOutcome.panicked ("index out of bounds")
  | some rootInst =>
    match rootInst.exports.find? (fun e => e.name == name) with
    | none => InvokeOutcome.panicked ("function not found")
    | some export_ =>
      match export_.desc with
      | ExportDesc.Func index =>
        match rootInst.funcaddrs.get? index with
        | none => InvokeOutcome.panicked ("index out of bounds")
        | some fa =>
          match rt.store.funcs.get? fa with
          | none => InvokeOutcome.panicked ("index out of bounds")
          | some (FuncInst.HostFunc _ hname) =>
            let rs := (env hname rootInst.stack).get_returns
            InvokeOutcome.ok rs.1
              { rt with instances := rt.instances.set rt.root ({ rootInst with stack := rs.2 }) }
          | some (FuncInst.InnerFunc _ _ func) =>
            match exec env fuel ({ instances := rt.instances, store := rt.store }) func.body
                ({ instance_addr := rt.root, local_ := params }) with
            | Except.error (Err.trap t) => InvokeOutcome.trap t
            | Except.error Err.panicked => InvokeOutcome.panicked ("panic during exec")
            | Except.error Err.outOfFuel => InvokeOutcome.outOfFuel
            | Except.ok (_, cfg) =>
              match cfg.instances.get? rt.root with
              | none => InvokeOutcome.panicked ("index out of bounds")
              | some rootInst' =>
                let rs := rootInst'.stack.get_returns
                InvokeOutcome.ok rs.1
                  { rt with
                    instances := cfg.instances.set rt.root ({ rootInst' with stack := rs.2 }),
                    store := cfg.store }
      | _ => InvokeOutcome.panicked ("not a function")

end Wasper

namespace Wasper

/-- Host environment used for concrete runs: leaves the caller stack unchanged. -/
def envNull : HostEnv := fun _ s => s

/-- Frame at instance 0 with no locals, used for concrete runs. -/
def frame0 : Frame := { instance_addr := 0, local_ := [] }

/-- Empty store, used for concrete runs. -/
def emptyStore : Store := { funcs := [], globals := [] }

/-- Popping `n` values succeeds exactly when `n` values are available and
yields them in pop order (top first), leaving the label region untouched. -/
theorem Stack.popN_eq (n : Nat) (s : Stack) (h : n ≤ s.values.length) :
    Stack.popN n s =
      some (s.values.take n, { values := s.values.drop n, labels := s.labels }) := by
  induction n generalizing s with
  | zero => simp [Stack.popN]
  | succ n ih =>
    obtain ⟨vals, labs⟩ := s
    cases vals with
    | nil => simp at h
    | cons v rest =>
      simp only [Stack.popN, Stack.pop_value]
      rw [ih ⟨rest, labs⟩ (by simpa using h)]
      simp

/-- Popping `n` labels succeeds exactly when `n` labels are available and
leaves the value region untouched. -/
theorem Stack.popLabels_eq (n : Nat) (s : Stack) (h : n ≤ s.labels.length) :
    Stack.popLabels n s = some ({ values := s.values, labels := s.labels.drop n }) := by
  induction n generalizing s with
  | zero => simp [Stack.popLabels]
  | succ n ih =>
    obtain ⟨vals, labs⟩ := s
    cases labs with
    | nil => simp at h
    | cons lab rest =>
      simp only [Stack.popLabels, Stack.pop_label]
      rw [ih ⟨vals, rest⟩ (by simpa using h)]
      simp

/-- Folding `push_value` over a buffer prepends the reversed buffer to the
value region and leaves the label region untouched. -/
theorem Stack.foldl_push_value (ws : List Value) (s : Stack) :
    ws.foldl Stack.push_value s =
      ({ values := ws.reverse ++ s.values, labels := s.labels } : Stack) := by
  induction ws generalizing s with
  | nil => simp
  | cons w ws ih => simp [Stack.push_value, ih]

/-- Computation law for `Instance.jump` under the preconditions of spec
invariant 3: the result keeps the top `n` values, truncates the rest of the
value region to `offset`, and drops labels `0..=l`. -/
theorem Instance.jump_eq (inst : Instance) (l : Nat) (label : Label)
    (hl : inst.stack.th_label l = some label)
    (hv : label.offset + label.n ≤ inst.stack.values_len) :
    inst.jump l = some ({ inst with stack :=
      { values := inst.stack.values.take label.n ++
          inst.stack.values.drop (inst.stack.values.length - label.offset),
        labels := inst.stack.labels.drop (l + 1) } }) := by
  have hlen : l < inst.stack.labels.length := by
    have h' := hl
    unfold Stack.th_label at h'
    rw [List.get?_eq_getElem?] at h'
    exact (List.getElem?_eq_some.mp h').1
  have hn : label.n ≤ inst.stack.values.length := by
    unfold Stack.values_len at hv; omega
  unfold Instance.jump
  rw [hl]
  dsimp only
  rw [Stack.popN_eq label.n inst.stack hn]
  dsimp only [Stack.values_len]
  rw [List.length_drop]
  have hoff : label.offset ≤ inst.stack.values.length - label.n := by
    unfold Stack.values_len at hv; omega
  rw [if_pos hoff]
  rw [Stack.popN_eq _ _ (by simp)]
  dsimp only
  rw [Stack.popLabels_eq (l + 1) _ (by simpa using hlen)]
  dsimp only
  rw [Stack.foldl_push_value, List.reverse_reverse]
  dsimp only
  have hdd : (inst.stack.values.drop label.n).drop
      (inst.stack.values.length - label.n - label.offset) =
      inst.stack.values.drop (inst.stack.values.length - label.offset) := by
    rw [List.drop_drop]
    congr 1
    omega
  rw [hdd]

/-- C1: if at least `l + 1` labels are on the stack and the value region holds
at least `th_label(l).n` values above `th_label(l).offset`, then `jump(l)`
succeeds and leaves exactly `th_label(l).n` values above `th_label(l).offset`
(the same `n` values that were on top before the jump, in their original
order: the rest of the value region is the original bottom `offset` values),
and removes labels `0` through `l` inclusive from the label region. -/
theorem jump_unwinds_to_label (inst : Instance) (l : Nat) (label : Label)
    (hl : inst.stack.th_label l = some label)
    (hv : label.offset + label.n ≤ inst.stack.values_len) :
    ∃ inst', inst.jump l = some inst' ∧
      inst'.stack.values_len = label.offset + label.n ∧
      inst'.stack.values.take label.n = inst.stack.values.take label.n ∧
      inst'.stack.values.drop label.n =
        inst.stack.values.drop (inst.stack.values_len - label.offset) ∧
      inst'.stack.labels = inst.stack.labels.drop (l + 1) := by
  have hn : label.n ≤ inst.stack.values.length := by
    unfold Stack.values_len at hv; omega
  refine ⟨_, Instance.jump_eq inst l label hl hv, ?_, ?_, ?_, rfl⟩
  · unfold Stack.values_len at hv ⊢
    simp [List.length_take, List.length_drop]
    omega
  · exact List.take_left' (by simp [List.length_take]; omega)
  · unfold Stack.values_len
    exact List.drop_left' (by simp [List.length_take]; omega)

/-- Concrete instance for the C1 witness: four values, two labels. -/
def instJ : Instance :=
  { funcaddrs := [], globaladdrs := [], types := [], start := none, exports := [],
    stack := { values := [Value.I32 6, Value.I32 5, Value.I32 3, Value.I32 0],
               labels := [{ n := 2, offset := 1 }, { n := 3, offset := 0 }] } }

/-- C1 witness: `jump_unwinds_to_label` applied to `instJ` at depth 1. -/
theorem jump_unwinds_to_label_witness :
    ∃ inst', instJ.jump 1 = some inst' ∧
      inst'.stack.values_len = 0 + 3 ∧
      inst'.stack.values.take 3 = instJ.stack.values.take 3 ∧
      inst'.stack.values.drop 3 = instJ.stack.values.drop (instJ.stack.values_len - 0) ∧
      inst'.stack.labels = instJ.stack.labels.drop (1 + 1) :=
  jump_unwinds_to_label instJ 1 { n := 3, offset := 0 } rfl (by decide)

/-- Spec-side value of a constant instruction (spec section 4.3): defined for
exactly the four constant opcodes. -/
def constValue : Instr → Option Value
  | Instr.I32Const v => some (Value.I32 v)
  | Instr.I64Const v => some (Value.I64 v)
  | Instr.F32Const v => some (Value.F32 v)
  | Instr.F64Const v => some (Value.F64 v)
  | _ => none

/-- C7 counterexample: `eval_const` does not reject every input other than the
four single-instruction constant expressions: the two-instruction expression
`[i32.const 5, nop]` succeeds instead of failing with `ConstantExpression`,
and the empty expression panics instead of failing with `ConstantExpression`. -/
theorem eval_const_multi_instruction_ok :
    eval_const [Instr.I32Const 5, Instr.Nop] = EvalConstResult.ok (Value.I32 5) ∧
    eval_const [Instr.I32Const 5, Instr.Nop] ≠ EvalConstResult.constantExpression ∧
    eval_const [] = EvalConstResult.panicked :=
  ⟨rfl, by decide, rfl⟩

/-- C7 amended: `eval_const` inspects only the first instruction of the
expression; it succeeds with the corresponding value exactly when the first
instruction is one of the four constant opcodes, fails with
`ConstantExpression` when the first instruction is anything else (regardless
of what follows), and panics on the empty expression. -/
theorem eval_const_first_instruction_only :
    eval_const [] = EvalConstResult.panicked ∧
    ∀ i rest, eval_const (i :: rest) =
      match constValue i with
      | some v => EvalConstResult.ok v
      | none => EvalConstResult.constantExpression := by
  refine ⟨rfl, fun i rest => ?_⟩
  cases i <;> rfl


/-- C9: `update_func_inst(addrs, a)` succeeds on in-bounds addresses, sets
`instance_addr = a` on every `InnerFunc` entry at an address in `addrs`, and
changes nothing else: `HostFunc` entries at addresses in `addrs`, entries at
addresses not in `addrs`, the length of `funcs`, and the `globals` vector are
all unchanged (the per-entry effect is `FuncInst.rebind`). -/
theorem update_func_inst_rebinds (store : Store) (addrs : List Nat) (a : Nat)
    (h : ∀ b ∈ addrs, b < store.funcs.length) :
    ∃ store', store.update_func_inst addrs a = some store' ∧
      store'.globals = store.globals ∧
      store'.funcs.length = store.funcs.length ∧
      ∀ i, store'.funcs.get? i =
        (store.funcs.get? i).map (fun f => if i ∈ addrs then f.rebind a else f) := by
  induction addrs generalizing store with
  | nil =>
    refine ⟨store, rfl, rfl, rfl, fun i => ?_⟩
    simp
  | cons fa rest ih =>
    have hfa : fa < store.funcs.length := h fa (List.mem_cons_self _ _)
    obtain ⟨f, hf⟩ : ∃ f, store.funcs.get? fa = some f := by
      rw [List.get?_eq_getElem?]
      exact ⟨_, List.getElem?_eq_getElem hfa⟩
    cases f with
    | InnerFunc ft ia func =>
      have h1 : ∀ b ∈ rest,
          b < (Store.mk (store.funcs.set fa (FuncInst.InnerFunc ft a func))
            store.globals).funcs.length := by
        intro b hb
        simpa using h b (List.mem_cons_of_mem _ hb)
      obtain ⟨store', heq, hg, hlen, hget⟩ := ih _ h1
      refine ⟨store', ?_, ?_, ?_, ?_⟩
      · simp only [Store.update_func_inst, hf]
        exact heq
      · simpa using hg
      · simpa using hlen
      · intro i
        rw [hget i]
        by_cases hifa : i = fa
        · subst hifa
          have hset : (store.funcs.set i (FuncInst.InnerFunc ft a func)).get? i =
              some (FuncInst.InnerFunc ft a func) := by
            rw [List.get?_eq_getElem?]
            exact List.getElem?_set_eq_of_lt _ hfa
          rw [hset, hf]
          simp [FuncInst.rebind]
        · have hset : (store.funcs.set fa (FuncInst.InnerFunc ft a func)).get? i =
              store.funcs.get? i := by
            rw [List.get?_eq_getElem?, List.get?_eq_getElem?]
            exact List.getElem?_set_ne (fun hh => hifa hh.symm)
          rw [hset]
          simp only [List.mem_cons, hifa, false_or]
    | HostFunc ft name =>
      have h1 : ∀ b ∈ rest, b < store.funcs.length := fun b hb =>
        h b (List.mem_cons_of_mem _ hb)
      obtain ⟨store', heq, hg, hlen, hget⟩ := ih store h1
      refine ⟨store', ?_, hg, hlen, ?_⟩
      · simp only [Store.update_func_inst, hf]
        exact heq
      · intro i
        rw [hget i]
        by_cases hifa : i = fa
        · subst hifa
          rw [hf]
          simp [FuncInst.rebind]
        · simp only [List.mem_cons, hifa, false_or]

/-- Concrete store for the C9 witness: one inner and one host function. -/
def storeW : Store :=
  { funcs := [FuncInst.InnerFunc (FuncType.mk [] []) 0 (Func.mk 0 [] []),
              FuncInst.HostFunc (FuncType.mk [] []) ("h")],
    globals := [] }

/-- C9 witness: `update_func_inst_rebinds` applied to `storeW`, rebinding
address 0 to instance address 5. -/
theorem update_func_inst_rebinds_witness :
    ∃ store', storeW.update_func_inst [0] 5 = some store' ∧
      store'.globals = storeW.globals ∧
      store'.funcs.length = storeW.funcs.length ∧
      ∀ i, store'.funcs.get? i =
        (storeW.funcs.get? i).map (fun f => if i ∈ [0] then f.rebind 5 else f) :=
  update_func_inst_rebinds storeW [0] 5 (by decide)

/-- C8: with two `i32` values on top of the value stack (`rhs` on top),
`I32Add` pops both and pushes the wrapping 32-bit sum of their patterns,
`(lhs + rhs) mod 2^32`, for all operand values including overflowing ones;
the rest of the value region and the label region are unchanged. -/
theorem i32add_wrapping (env : HostEnv) (fuel : Nat) (cfg : Config) (frame : Frame)
    (inst : Instance) (a b : Nat) (rest : List Value)
    (hinst : cfg.instances.get? frame.instance_addr = some inst)
    (hstack : inst.stack.values = Value.I32 a :: Value.I32 b :: rest) :
    step env (fuel + 1) cfg Instr.I32Add frame =
      Except.ok (ExecState.Continue,
        cfg.setInst frame.instance_addr
          ({ inst with stack := (Stack.mk (Value.I32 ((a + b) % 4294967296) :: rest)
              inst.stack.labels) })) := by
  rw [step, hinst]
  dsimp only
  have hb : inst.binary_op_i32 (fun a b => a + b) =
      some ({ inst with stack := (Stack.mk (Value.I32 ((a + b) % 4294967296) :: rest)
        inst.stack.labels) }) := by
    unfold Instance.binary_op_i32 Stack.pop_i32
    rw [hstack]
    dsimp only [Stack.push_value]
  rw [hb]

/-- Concrete configuration for the C8 witness: values `2^32 - 1` and `2`. -/
def instAdd : Instance :=
  { funcaddrs := [], globaladdrs := [], types := [], start := none, exports := [],
    stack := { values := [Value.I32 4294967295, Value.I32 2], labels := [] } }

/-- Concrete configuration for the C8 witness. -/
def cfgAdd : Config := { instances := [instAdd], store := emptyStore }

/-- C8 witness: `i32add_wrapping` applied to `cfgAdd`: the overflowing sum
`(2^32 - 1) + 2` wraps to `1`. -/
theorem i32add_wrapping_witness :
    step envNull 1 cfgAdd Instr.I32Add frame0 =
      Except.ok (ExecState.Continue,
        cfgAdd.setInst 0 ({ instAdd with stack := Stack.mk [Value.I32 1] [] })) :=
  i32add_wrapping envNull 0 cfgAdd frame0 instAdd 4294967295 2 [] rfl rfl


/-- Concrete instance for C2: index value `0` on the stack, one label, an
empty branch table. -/
def instBT : Instance :=
  { funcaddrs := [], globaladdrs := [], types := [], start := none, exports := [],
    stack := { values := [Value.I32 0], labels := [{ n := 0, offset := 0 }] } }

/-- Concrete configuration for C2. -/
def cfgBT : Config := { instances := [instBT], store := emptyStore }

/-- C2: the claim fails at the boundary index. With `indexes = []` and
`default = 0`, the popped index `i = 0` satisfies `i >= length(indexes)`, so
the claim requires a branch to `default`; the source in-range check
`i <= indexs.len()` instead sends execution into `indexs[i]`, which panics
(index out of bounds). The second conjunct shows the branch to `default`
itself would have succeeded: `jump 0` on the post-pop stack is defined. -/
theorem brtable_boundary_panics :
    step envNull 1 cfgBT (Instr.BrTable [] 0) frame0 = Except.error Err.panicked ∧
    Instance.jump ({ instBT with stack := { values := [], labels := [{ n := 0, offset := 0 }] } }) 0 =
      some ({ instBT with stack := { values := [], labels := [] } }) :=
  ⟨rfl, rfl⟩

/-- Function type `(i32, i32) -> ()` for C3. -/
def ftC3 : FuncType := { params := [ValType.I32, ValType.I32], results := [] }

/-- Callee for C3: its body pushes `local[0]` so the test observes which
parameter landed at index 0. -/
def funcC3 : Func := { typeidx := 0, locals := [], body := [Instr.LocalGet 0] }

/-- Concrete caller instance for C3: first parameter `v1 = 1` below, last
parameter `v2 = 2` on top. -/
def instC3 : Instance :=
  { funcaddrs := [0], globaladdrs := [], types := [ftC3], start := none, exports := [],
    stack := { values := [Value.I32 2, Value.I32 1], labels := [] } }

/-- Concrete configuration for C3. -/
def cfgC3 : Config := { instances := [instC3], store := { funcs := [FuncInst.InnerFunc ftC3 0 funcC3], globals := [] } }

/-- C3: the claim fails on the code. Calling a two-parameter function with
`v1 = 1, v2 = 2` (v2 on top) builds `local = [2, 1]`: the LAST parameter is
at index 0, not the first as the claim states. The callee body `local.get 0`
pushes `2`; under the claim it would push `1`. -/
theorem call_reverses_params :
    step envNull 3 cfgC3 (Instr.Call 0) frame0 =
      Except.ok (ExecState.Continue,
        cfgC3.setInst 0 ({ instC3 with stack := { values := [Value.I32 2], labels := [] } })) ∧
    Stack.popN ftC3.params.length instC3.stack =
      some ([Value.I32 2, Value.I32 1], { values := [], labels := [] }) :=
  ⟨rfl, rfl⟩

/-- Concrete empty instance for C4 and C5. -/
def instE : Instance :=
  { funcaddrs := [], globaladdrs := [], types := [], start := none, exports := [],
    stack := { values := [], labels := [] } }

/-- Concrete configuration for C4 and C5. -/
def cfgE : Config := { instances := [instE], store := emptyStore }

/-- C4: the claim fails on the code. Executing
`[Block (body = [Return]), i32.const 42]` does execute the trailing
instruction: the `Block` arm of `step` maps the `Return` state coming out of
its body to `Continue` (only `Breaking(l>0)` is propagated), so `exec` goes
on to push `42`. Under the claim the result stack would not contain `42`. -/
theorem block_swallows_return :
    exec envNull 10 cfgE [Instr.Block Block.Empty [Instr.Return], Instr.I32Const 42] frame0 =
      Except.ok (ExecState.Return,
        cfgE.setInst 0 ({ instE with stack :=
          { values := [Value.I32 42], labels := [{ n := 0, offset := 0 }] } })) :=
  rfl

/-- C5: the claim fails on the code. A `Block` whose body `[Nop]` completes by
fall-through leaves the label pushed at block entry on the label region:
depth after the block is 1, not the 0 it was before (no arm of `step` pops a
label; only `jump` does, on branches). -/
theorem block_label_not_popped :
    step envNull 5 cfgE (Instr.Block Block.Empty [Instr.Nop]) frame0 =
      Except.ok (ExecState.Continue,
        cfgE.setInst 0 ({ instE with stack :=
          { values := [], labels := [{ n := 0, offset := 0 }] } })) :=
  rfl

/-- Empty function type for C6. -/
def ftNil : FuncType := { params := [], results := [] }

/-- Function at store address 0 for C6: pushes 7. -/
def func7 : Func := { typeidx := 0, locals := [], body := [Instr.I32Const 7] }

/-- Function at store address 1 for C6: pushes 9. -/
def func9 : Func := { typeidx := 0, locals := [], body := [Instr.I32Const 9] }

/-- Concrete root instance for C6: the declared start function has module
index 0, and `funcaddrs` maps it to store address 1 (not the identity). -/
def instStart : Instance :=
  { funcaddrs := [1], globaladdrs := [], types := [ftNil], start := some 0, exports := [],
    stack := { values := [], labels := [] } }

/-- Concrete runtime for C6. -/
def rtStart : Runtime :=
  { root := 0, instances := [instStart],
    store := { funcs := [FuncInst.InnerFunc ftNil 0 func7, FuncInst.InnerFunc ftNil 0 func9],
               globals := [] } }

/-- C6: the claim fails on the code. The root instance declares start index 0
with `funcaddrs = [1]`, so the claim requires `start()` to run the function
at store address `funcaddrs[0] = 1` (body pushes 9). The source instead
resolves `store.funcs[0]` with the raw module index and runs the function at
store address 0 (body pushes 7): the first conjunct shows the executed result
is `[I32 7]`; the last conjunct shows running the function at store address
`funcaddrs[0]` would give `[I32 9]`. -/
theorem start_ignores_funcaddrs :
    Runtime.start envNull 10 rtStart =
      StartOutcome.ok ({ rtStart with instances :=
        [({ instStart with stack := { values := [Value.I32 7], labels := [] } })] }) ∧
    instStart.funcaddrs.get? 0 = some 1 ∧
    exec envNull 10 ({ instances := rtStart.instances, store := rtStart.store }) func9.body
        ({ instance_addr := 0, local_ := [] }) =
      Except.ok (ExecState.Return,
        ({ instances := [({ instStart with stack := { values := [Value.I32 9], labels := [] } })],
           store := rtStart.store } : Config)) :=
  ⟨rfl, rfl, rfl⟩


/-- C10: `invoke` panics, returning neither `Ok(values)` nor `Err(Trap)`, for
every name matching no export of the root instance and for every matching
export whose descriptor is not a function; an `Err(Trap)` outcome can only
arise from `exec` on an inner function body. -/
theorem invoke_panics_or_inner_trap (env : HostEnv) (fuel : Nat) (rt : Runtime)
    (name : String) (params : List Value) (rootInst : Instance)
    (hroot : rt.instances.get? rt.root = some rootInst) :
    (rootInst.exports.find? (fun e => e.name == name) = none →
      Runtime.invoke env fuel rt name params = InvokeOutcome.panicked ("function not found")) ∧
    (∀ ex, rootInst.exports.find? (fun e => e.name == name) = some ex →
      (∀ i, ex.desc ≠ ExportDesc.Func i) →
      Runtime.invoke env fuel rt name params = InvokeOutcome.panicked ("not a function")) ∧
    (∀ t, Runtime.invoke env fuel rt name params = InvokeOutcome.trap t →
      ∃ ex i fa ft ia func,
        rootInst.exports.find? (fun e => e.name == name) = some ex ∧
        ex.desc = ExportDesc.Func i ∧
        rootInst.funcaddrs.get? i = some fa ∧
        rt.store.funcs.get? fa = some (FuncInst.InnerFunc ft ia func) ∧
        exec env fuel ({ instances := rt.instances, store := rt.store }) func.body
          ({ instance_addr := rt.root, local_ := params }) = Except.error (Err.trap t)) := by
  refine ⟨?_, ?_, ?_⟩
  · intro hfind
    unfold Runtime.invoke
    rw [hroot]
    dsimp only
    rw [hfind]
  · intro ex hfind hdesc
    unfold Runtime.invoke
    rw [hroot]
    dsimp only
    rw [hfind]
    dsimp only
    cases hd : ex.desc with
    | Func i => exact absurd hd (hdesc i)
    | Table i => rfl
    | Mem i => rfl
    | Global i => rfl
  · intro t htrap
    unfold Runtime.invoke at htrap
    rw [hroot] at htrap
    dsimp only at htrap
    split at htrap
    · simp at htrap
    · rename_i export_ hfind
      split at htrap
      · rename_i index hdesc
        split at htrap
        · simp at htrap
        · rename_i fa hfa
          split at htrap
          · simp at htrap
          · simp at htrap
          · rename_i ft ia func hfunc
            split at htrap
            · rename_i t' hexec
              refine ⟨export_, index, fa, ft, ia, func, hfind, hdesc, hfa, hfunc, ?_⟩
              cases htrap
              exact hexec
            · simp at htrap
            · simp at htrap
            · rename_i st cfg hexec
              split at htrap
              · simp at htrap
              · simp at htrap
      · simp at htrap

/-- Concrete runtime for the C10 witness: root instance with no exports. -/
def rtW : Runtime := { root := 0, instances := [instE], store := emptyStore }

/-- C10 witness: `invoke_panics_or_inner_trap` applied to `rtW` and a name
matching no export. -/
theorem invoke_panics_or_inner_trap_witness :
    Runtime.invoke envNull 1 rtW ("f") [] = InvokeOutcome.panicked ("function not found") :=
  (invoke_panics_or_inner_trap envNull 1 rtW ("f") [] instE rfl).1 rfl

end Wasper
